import Mathlib

/-!
Verification development for the video-description pipeline.

The definitions below are a shallow embedding of the Python sources:
`app/core/task_tracker.py` (TaskTracker), `app/services/video_processor.py`
(split_video, extract_frames), `app/services/audio_processor.py`
(process_audio), `app/services/gpt_service.py` (generate_description progress
reporting) and `app/api/routes/video_analysis.py` (analyze_video_task,
analyze_video, result assembly).  Python dictionaries are modelled as
association lists, machine floats used for progress values as rationals,
and the external collaborators (Gemini calls, HTTP requests, the file
system) as explicit oracles / event traces.
-/

/-! ## TaskTracker (app/core/task_tracker.py)

A task record keeps more fields in the source (timings, steps); the claims
under verification only concern `status` and `current_progress`, so the
embedding keeps exactly those two.  The task table `self.tasks` is an
association list keyed by the task id. -/

structure TaskData where
  status : String
  current_progress : ℚ
  deriving Repr, DecidableEq

/-- Update-or-insert on the task table (Python `self.tasks[task_id] = ...`). -/
def setTask : List (String × TaskData) → String → TaskData → List (String × TaskData)
  | [], id, d => [(id, d)]
  | (k, v) :: rest, id, d =>
      if k = id then (k, d) :: rest else (k, v) :: setTask rest id d

/-- `TaskTracker.start_task`: initialize the record with status
`in_progress` and progress 0. -/
def start_task (tasks : List (String × TaskData)) (id : String) :
    List (String × TaskData) :=
  setTask tasks id { status := "in_progress", current_progress := 0 }

/-- `TaskTracker.update_progress`: create the task if absent (defensive),
then overwrite the overall `current_progress` with the given value
(line 99 of task_tracker.py: progress is recorded as given, not maxed). -/
def update_progress (tasks : List (String × TaskData)) (id : String) (p : ℚ) :
    List (String × TaskData) :=
  let tasks' := if (tasks.lookup id).isSome then tasks else start_task tasks id
  match tasks'.lookup id with
  | some d => setTask tasks' id { d with current_progress := p }
  | none => tasks'

/-- `TaskTracker.complete_task`: raises `ValueError` for an unknown task;
otherwise records the given terminal status and unconditionally sets
`current_progress` to 100 (line 154). -/
def complete_task (tasks : List (String × TaskData)) (id : String)
    (s : String) : Except String (List (String × TaskData)) :=
  match tasks.lookup id with
  | none => Except.error "Task not found."
  | some _ => Except.ok (setTask tasks id { status := s, current_progress := 100 })

theorem lookup_setTask (tasks : List (String × TaskData)) (id : String)
    (d : TaskData) : (setTask tasks id d).lookup id = some d := by
  induction tasks with
  | nil => simp [setTask]
  | cons kv rest ih =>
      obtain ⟨k, v⟩ := kv
      by_cases h : k = id
      · subst h; simp [setTask]
      · have hk : (id == k) = false := beq_eq_false_iff_ne.mpr (Ne.symm h)
        simp [setTask, h, List.lookup, hk, ih]

theorem lookup_update_progress (tasks : List (String × TaskData))
    (id : String) (p : ℚ) :
    (update_progress tasks id p).lookup id =
      some { status := ((if (tasks.lookup id).isSome then tasks
                         else start_task tasks id).lookup id).elim "" TaskData.status,
             current_progress := p } := by
  unfold update_progress
  by_cases h : (tasks.lookup id).isSome
  · obtain ⟨d, hd⟩ := Option.isSome_iff_exists.mp h
    simp [h, hd, lookup_setTask]
  · simp only [h, if_false]
    have : (start_task tasks id).lookup id =
        some { status := "in_progress", current_progress := 0 } :=
      lookup_setTask ..
    simp [this, lookup_setTask]

/-! ## Progress values reported during one run (claim C1)

The lists below record, in program order, the `progress` argument of every
`task_tracker.update_progress` call each function makes on its success
path.  Values the source computes with float arithmetic are carried as
rationals; Python `int(...)` truncation of the non-negative values involved
is the floor. -/

/-- Python `int(x)` for the non-negative rationals that arise here. -/
def pyInt (q : ℚ) : ℚ := ((⌊q⌋ : ℤ) : ℚ)

/-- `split_video` progress reports: 6, 7, 8, then `8 + i * (7 / num_parts)`
for each part `i`, then 15 (video_processor.py lines 39-107). -/
def split_video_progress (num_parts : ℕ) : List ℚ :=
  [6, 7, 8] ++
    (List.range num_parts).map (fun i => 8 + (i : ℚ) * (7 / (num_parts : ℚ))) ++
    [15]

/-- `process_video` progress reports on the success path
(video_processor.py lines 376-394): 5, the `split_video` reports, 15, 25,
and when at least one valid grid exists 30 and 35. -/
def process_video_progress (num_parts : ℕ) (hasValidGrids : Bool) : List ℚ :=
  [5] ++ split_video_progress num_parts ++ [15, 25] ++
    (if hasValidGrids then [30, 35] else [])

/-- `process_audio` progress reports on the success path
(audio_processor.py lines 56-127): 10, 15, 25, 30, then
`30 + (i + 1) * (35 - 30) / num_chunks` per chunk, then 35 and 40. -/
def process_audio_progress (num_chunks : ℕ) : List ℚ :=
  [10, 15, 25, 30] ++
    (List.range num_chunks).map
      (fun i => 30 + ((i : ℚ) + 1) * (35 - 30) / (num_chunks : ℚ)) ++
    [35, 40]

/-- `analyze_grid_images` progress reports (gpt_service.py line 30):
`int(65 + idx / total_images * 5)` for `idx` in `1..total_images`. -/
def analyze_grid_images_progress (total_images : ℕ) : List ℚ :=
  (List.range total_images).map
    (fun i => pyInt (65 + ((i : ℚ) + 1) / (total_images : ℚ) * 5))

/-- `generate_description` progress reports (gpt_service.py lines 97, 103,
167): 65, the grid-analysis reports, 70, 75. -/
def generate_description_progress (total_images : ℕ) : List ℚ :=
  [65] ++ analyze_grid_images_progress total_images ++ [70, 75]

/-- The `update_progress` calls `analyze_video_task` itself makes on its
success path (video_analysis.py lines 39-189): 0 before the parallel phase,
then 20, 30, 40, 40, 60, 60, 80, 90, an extra 90 when a callback identifier
is present, and 100. -/
def orchestrator_progress (hasIdentifier : Bool) : List ℚ :=
  [0, 20, 30, 40, 40, 60, 60, 80, 90] ++
    (if hasIdentifier then [90] else []) ++ [100]

/-- Interleavings of two lists: the possible orders in which the progress
reports of the two concurrently running branches reach the tracker. -/
inductive Interleaving : List ℚ → List ℚ → List ℚ → Prop
  | nil : Interleaving [] [] []
  | left {x xs ys zs} : Interleaving xs ys zs → Interleaving (x :: xs) ys (x :: zs)
  | right {y xs ys zs} : Interleaving xs ys zs → Interleaving xs (y :: ys) (y :: zs)

theorem Interleaving.append (xs ys : List ℚ) : Interleaving xs ys (xs ++ ys) := by
  induction xs with
  | nil =>
      induction ys with
      | nil => exact .nil
      | cons y ys ih => exact .right ih
  | cons x xs ih => exact .left ih

/-- The full sequence of progress values recorded during one successful run
of `analyze_video_task`: the orchestrator's 0, some interleaving
`parallelPhase` of the two branches' reports, the orchestrator's remaining
reports (with `generate_description`'s reports between the 40s and the
first 60), and the final 100 written by `complete_task`. -/
def task_run_progress (parallelPhase : List ℚ) (nGrids : ℕ)
    (hasIdentifier : Bool) : List ℚ :=
  [0] ++ parallelPhase ++ [20, 30, 40, 40] ++
    generate_description_progress nGrids ++ [60, 60, 80, 90] ++
    (if hasIdentifier then [90] else []) ++ [100, 100]

/-- Replaying a list of `update_progress` calls against the tracker: the
`current_progress` value recorded after each successive call. -/
def recordedTrace (tasks : List (String × TaskData)) (id : String) :
    List ℚ → List ℚ
  | [] => []
  | p :: ps =>
      let t' := update_progress tasks id p
      (match t'.lookup id with
       | some d => [d.current_progress]
       | none => []) ++ recordedTrace t' id ps

theorem recordedTrace_eq (ps : List ℚ) :
    ∀ (tasks : List (String × TaskData)) (id : String),
      recordedTrace tasks id ps = ps := by
  induction ps with
  | nil => intro tasks id; rfl
  | cons p ps ih =>
      intro tasks id
      rw [recordedTrace, lookup_update_progress]
      simp [ih]

/-- C1: the claim that the overall progress recorded by the tracker is
monotonically non-decreasing across the successive `update_progress` calls
of one `analyze_video_task` run is false: in a run with one video part, one
audio chunk and one grid (here with the video branch's reports arriving
before the audio branch's, a legal interleaving of the two concurrent
branches), the audio branch reports 40 and the orchestrator then records 20
("Parallel processing completed"), and `generate_description` reports 75
before the orchestrator records 60. -/
theorem progress_trace_not_monotone :
    Interleaving (process_video_progress 1 true) (process_audio_progress 1)
      (process_video_progress 1 true ++ process_audio_progress 1) ∧
    ¬ List.Chain' (· ≤ ·)
        (recordedTrace [] "task"
          (task_run_progress
            (process_video_progress 1 true ++ process_audio_progress 1) 1 true)) := by
  refine ⟨Interleaving.append _ _, ?_⟩
  rw [recordedTrace_eq]
  simp only [task_run_progress, process_video_progress, process_audio_progress,
    split_video_progress, generate_description_progress,
    analyze_grid_images_progress, pyInt, List.range_succ, List.range_zero,
    List.map_append, List.map_cons, List.map_nil, List.nil_append,
    List.cons_append, List.append_nil, if_true]
  norm_num [List.chain'_cons]

/-- C1 (amended): the `update_progress` calls `analyze_video_task` itself
makes on its success path carry non-decreasing progress values, and the
final `complete_task` records 100; the non-monotonicity of the full trace
comes only from the sub-stage reports (process_video up to 35,
process_audio up to 40, generate_description 65-75) interleaved between
them. -/
theorem orchestrator_progress_monotone (hasIdentifier : Bool) :
    List.Chain' (· ≤ ·)
      (recordedTrace [] "task" (orchestrator_progress hasIdentifier) ++ [100]) := by
  rw [recordedTrace_eq]
  cases hasIdentifier <;>
    · simp only [orchestrator_progress, List.cons_append, List.nil_append,
        if_true, if_false, List.append_nil]
      norm_num [List.chain'_cons]

/-- C10: `complete_task` records the given terminal status and sets the
task's `current_progress` to 100 whatever that status is — in particular a
task completed with status "error" is thereafter reported with progress
100. -/
theorem complete_task_sets_progress_100 (tasks : List (String × TaskData))
    (id s : String) (d : TaskData) (h : tasks.lookup id = some d) :
    ∃ tasks', complete_task tasks id s = Except.ok tasks' ∧
      tasks'.lookup id = some { status := s, current_progress := 100 } := by
  refine ⟨setTask tasks id { status := s, current_progress := 100 }, ?_,
    lookup_setTask ..⟩
  unfold complete_task
  rw [h]

/-- Witness for C10 at a concrete tracker state and the terminal status
"error". -/
theorem complete_task_sets_progress_100_witness :
    ∃ tasks',
      complete_task [("t", { status := "in_progress", current_progress := 42 })]
          "t" "error" = Except.ok tasks' ∧
      tasks'.lookup "t" = some { status := "error", current_progress := 100 } :=
  complete_task_sets_progress_100 _ "t" "error"
    { status := "in_progress", current_progress := 42 } rfl

/-! ## split_video (app/services/video_processor.py lines 25-108, claim C2)

The source probes `total_frames` and `fps`, computes
`duration = total_frames / fps if fps > 0 else 0`, `minutes = duration / 60`,
`num_parts = min(5, max(1, int(minutes)))`, `frames_per_part =
total_frames // num_parts`, and writes part `i` over the frame range
`[i * frames_per_part, start + frames_per_part)` except that the last part
runs to `total_frames`.  The embedding computes the per-part frame ranges;
one output buffer is produced per range. -/

def num_parts (total_frames : ℕ) (fps : ℚ) : ℕ :=
  let duration : ℚ := if 0 < fps then (total_frames : ℚ) / fps else 0
  let minutes : ℚ := duration / 60
  min 5 (max 1 (⌊minutes⌋.toNat))

def split_video_ranges (total_frames : ℕ) (fps : ℚ) : List (ℕ × ℕ) :=
  let n := num_parts total_frames fps
  let frames_per_part := total_frames / n
  (List.range n).map (fun i =>
    (i * frames_per_part,
     if i < n - 1 then i * frames_per_part + frames_per_part else total_frames))

/-- Modelled from the spec's words for comparison:
`segmentCount = clamp(floor(durationMinutes), 1, 5)`. -/
def specSegmentCount (durationMinutes : ℚ) : ℕ :=
  (min 5 (max 1 ⌊durationMinutes⌋)).toNat

/-- C2: with a positive probed fps (so the probed duration is
`D = total_frames / fps / 60` minutes), `split_video` produces exactly
`clamp(floor(D), 1, 5)` segments; every segment but the last spans
`total_frames / num_parts` frames starting at `i * frames_per_part`, and the
last segment ends at `total_frames`.  The three closing conjuncts are the
spec's examples at 30 fps: a 30-second clip (900 frames) gives 1 segment, a
3.4-minute clip (6120 frames) gives 3, a 20-minute clip (36000 frames)
gives 5. -/
theorem split_video_segment_structure (total_frames : ℕ) (fps : ℚ)
    (hfps : 0 < fps) :
    (split_video_ranges total_frames fps).length
        = specSegmentCount ((total_frames : ℚ) / fps / 60) ∧
    (∀ i : ℕ, i + 1 < num_parts total_frames fps →
        (split_video_ranges total_frames fps)[i]? =
          some (i * (total_frames / num_parts total_frames fps),
                i * (total_frames / num_parts total_frames fps)
                  + total_frames / num_parts total_frames fps)) ∧
    ((split_video_ranges total_frames fps)[num_parts total_frames fps - 1]? =
        some ((num_parts total_frames fps - 1)
                * (total_frames / num_parts total_frames fps),
              total_frames)) ∧
    1 ≤ num_parts total_frames fps ∧ num_parts total_frames fps ≤ 5 ∧
    (split_video_ranges 900 30).length = 1 ∧
    (split_video_ranges 6120 30).length = 3 ∧
    (split_video_ranges 36000 30).length = 5 := by
  have hn : 1 ≤ num_parts total_frames fps ∧ num_parts total_frames fps ≤ 5 := by
    simp only [num_parts]
    exact ⟨le_min (by norm_num) (le_max_left _ _), min_le_left _ _⟩
  have hD : (0 : ℚ) ≤ (total_frames : ℚ) / fps / 60 := by positivity
  have hfloor : (0 : ℤ) ≤ ⌊(total_frames : ℚ) / fps / 60⌋ :=
    Int.floor_nonneg.mpr hD
  refine ⟨?_, ?_, ?_, hn.1, hn.2, ?_, ?_, ?_⟩
  · simp only [split_video_ranges, List.length_map, List.length_range]
    simp only [num_parts, specSegmentCount, if_pos hfps]
    generalize h : ⌊(total_frames : ℚ) / fps / 60⌋ = z at hfloor ⊢
    omega
  · intro i hi
    rw [split_video_ranges, List.getElem?_map,
      List.getElem?_range (by omega : i < num_parts total_frames fps),
      Option.map_some']
    rw [if_pos (by omega)]
  · rw [split_video_ranges, List.getElem?_map,
      List.getElem?_range
        (by omega : num_parts total_frames fps - 1 < num_parts total_frames fps),
      Option.map_some']
    rw [if_neg (by omega)]
  · simp only [split_video_ranges, List.length_map, List.length_range]
    norm_num [num_parts]
  · simp only [split_video_ranges, List.length_map, List.length_range]
    norm_num [num_parts]
    decide
  · simp only [split_video_ranges, List.length_map, List.length_range]
    norm_num [num_parts]

/-- Witness for C2 at 900 frames and 30 fps. -/
theorem split_video_segment_structure_witness :
    (split_video_ranges 900 30).length = specSegmentCount ((900 : ℚ) / 30 / 60) :=
  (split_video_segment_structure 900 30 (by norm_num)).1

/-! ## extract_frames (app/services/video_processor.py lines 129-198, claim C3)

For a chunk with `total_frames > 0` the source computes
`interval = max(1, total_frames // 16)` and loops `i` over `range(16)`,
seeking `frame_pos = min(i * interval, total_frames - 1)` and reading one
frame there; a failed read is logged and skipped, with no retry.  The read
outcome is an oracle `read : position → Option frame`; the loop returns the
positions attempted (in order) and the frames successfully read. -/

def extract_interval (total_frames : ℕ) : ℕ := max 1 (total_frames / 16)

def frame_positions (total_frames : ℕ) : List ℕ :=
  (List.range 16).map
    (fun i => min (i * extract_interval total_frames) (total_frames - 1))

def extract_frames_loop {α : Type} (read : ℕ → Option α) (total_frames : ℕ) :
    List ℕ × List α :=
  (List.range 16).foldl
    (fun acc i =>
      let pos := min (i * extract_interval total_frames) (total_frames - 1)
      match read pos with
      | some f => (acc.1 ++ [pos], acc.2 ++ [f])
      | none => (acc.1 ++ [pos], acc.2))
    ([], [])

theorem extract_frames_loop_eq {α : Type} (read : ℕ → Option α)
    (total_frames : ℕ) :
    extract_frames_loop read total_frames =
      (frame_positions total_frames,
       (frame_positions total_frames).filterMap read) := by
  have key : ∀ (l : List ℕ) (a : List ℕ) (b : List α),
      l.foldl
        (fun acc i =>
          let pos := min (i * extract_interval total_frames) (total_frames - 1)
          match read pos with
          | some f => (acc.1 ++ [pos], acc.2 ++ [f])
          | none => (acc.1 ++ [pos], acc.2))
        (a, b) =
      (a ++ l.map (fun i => min (i * extract_interval total_frames) (total_frames - 1)),
       b ++ (l.map (fun i => min (i * extract_interval total_frames) (total_frames - 1))).filterMap read) := by
    intro l
    induction l with
    | nil => intro a b; simp
    | cons i l ih =>
        intro a b
        simp only [List.foldl_cons, List.map_cons, List.filterMap_cons]
        cases hr : read (min (i * extract_interval total_frames) (total_frames - 1)) with
        | some f => simp [hr, ih, List.append_assoc]
        | none => simp [hr, ih, List.append_assoc]
  unfold extract_frames_loop frame_positions
  exact key _ [] []

/-- C3: with `T > 0` total frames, the loop attempts exactly the 16
positions `min(i * max(1, T / 16), T - 1)` for `i` in `0..15`, every
attempted position is `< T`, the extracted frames are exactly the
successful reads at those positions in order (a failed read is skipped, not
retried), and for `T = 40` the attempted positions are exactly
`0, 2, 4, ..., 30`. -/
theorem extract_frames_sampling {α : Type} (read : ℕ → Option α)
    (total_frames : ℕ) (hT : 0 < total_frames) :
    (extract_frames_loop read total_frames).1 = frame_positions total_frames ∧
    (frame_positions total_frames).length = 16 ∧
    (∀ i : ℕ, i < 16 → (frame_positions total_frames)[i]? =
        some (min (i * max 1 (total_frames / 16)) (total_frames - 1))) ∧
    (∀ p ∈ frame_positions total_frames, p < total_frames) ∧
    (extract_frames_loop read total_frames).2 =
      (frame_positions total_frames).filterMap read ∧
    frame_positions 40 =
      [0, 2, 4, 6, 8, 10, 12, 14, 16, 18, 20, 22, 24, 26, 28, 30] := by
  refine ⟨by rw [extract_frames_loop_eq], ?_, ?_, ?_, by rw [extract_frames_loop_eq], ?_⟩
  · simp [frame_positions]
  · intro i hi
    rw [frame_positions, List.getElem?_map, List.getElem?_range hi,
      Option.map_some']
    rfl
  · intro p hp
    simp only [frame_positions, List.mem_map, List.mem_range] at hp
    obtain ⟨i, _, rfl⟩ := hp
    have : min (i * extract_interval total_frames) (total_frames - 1)
        ≤ total_frames - 1 := min_le_right _ _
    omega
  · decide

/-- Witness for C3: the spec's example segment with 40 frames. -/
theorem extract_frames_sampling_witness :
    frame_positions 40 =
      [0, 2, 4, 6, 8, 10, 12, 14, 16, 18, 20, 22, 24, 26, 28, 30] :=
  (extract_frames_sampling (fun p => (some p : Option ℕ)) 40
    (by norm_num)).2.2.2.2.2

/-! ## process_audio (app/services/audio_processor.py lines 35-155, claims C4, C5)

`process_audio` saves the video bytes to a temporary file, extracts the
audio track to `extracted_audio_<timestamp>.wav`, computes
`num_chunks = ceil(audio_length / CHUNK_DURATION)` and loops over the
chunks: each chunk `[i*CHUNK_DURATION, min((i+1)*CHUNK_DURATION, L))` is
exported to a temporary chunk file (recorded in `chunk_files`), a chunk
larger than `MAX_CHUNK_SIZE` raises `ValueError`, otherwise the chunk is
transcribed (awaited before the next chunk starts;
`transcribe_audio_with_gemini` never raises — it returns an error string).
An inner `finally` deletes every file in `chunk_files`; the outer `except`
turns any error into the returned `[{"error": ...}], None`; the outer
`finally` deletes the temporary video file.  The intermediate audio file
itself is never deleted here: its name is returned (success only) and
`analyze_video_task`'s `finally` (video_analysis.py lines 196-213) deletes
it when a filename was returned and the task ended "error" or "completed".

The embedding runs the loop over an oracle `chunkSize` for the encoded
chunk-file sizes and `transcribe` for the transcription collaborator, and
records file-system effects as an event trace replayed over the set of
existing files. -/

def MAX_CHUNK_SIZE : ℕ := 24 * 1024 * 1024

def CHUNK_DURATION : ℕ := 10 * 60 * 1000

/-- `math.ceil(audio_length / CHUNK_DURATION)`. -/
def num_chunks (audio_length : ℕ) : ℕ :=
  (audio_length + CHUNK_DURATION - 1) / CHUNK_DURATION

/-- The chunk slice bounds: chunk `i` covers
`[i*CHUNK_DURATION, min((i+1)*CHUNK_DURATION, audio_length))`. -/
def chunkBounds (audio_length : ℕ) : List (ℕ × ℕ) :=
  (List.range (num_chunks audio_length)).map
    (fun i => (i * CHUNK_DURATION, min ((i + 1) * CHUNK_DURATION) audio_length))

inductive FileId where
  | tempVideo : FileId
  | audioFile : FileId
  | chunkFile : ℕ → FileId
  deriving DecidableEq, Repr

inductive AudioEvent where
  | createChunk : ℕ → AudioEvent
  | transcribeChunk : ℕ → AudioEvent
  | deleteChunk : ℕ → AudioEvent
  | deleteTempVideo : AudioEvent
  deriving DecidableEq, Repr

inductive AudioOutcome where
  | ok : String → AudioOutcome
  | err : ℕ → AudioOutcome
  deriving DecidableEq, Repr

/-- The chunk loop (lines 92-119), over the list of chunk indices: create
the chunk file, abort when its size exceeds the cap, otherwise transcribe
it and continue.  Returns (events, transcripts, chunk files created,
index of the oversized chunk if any). -/
def audio_chunk_loop (chunkSize : ℕ → ℕ) (transcribe : ℕ → String) :
    List ℕ → List AudioEvent × List String × List ℕ × Option ℕ
  | [] => ([], [], [], none)
  | i :: rest =>
      if MAX_CHUNK_SIZE < chunkSize i then
        ([AudioEvent.createChunk i], [], [i], some i)
      else
        let r := audio_chunk_loop chunkSize transcribe rest
        (AudioEvent.createChunk i :: AudioEvent.transcribeChunk i :: r.1,
         transcribe i :: r.2.1, i :: r.2.2.1, r.2.2.2)

structure AudioRun where
  events : List AudioEvent
  outcome : AudioOutcome
  returnedAudioFile : Option FileId
  deriving Repr

/-- The returned outcome: on success (`errIdx = none`) the transcripts are
joined with a single space; an oversized chunk makes the outer `except`
return an error-tagged result. -/
def audio_outcome (transcripts : List String) : Option ℕ → AudioOutcome
  | none => AudioOutcome.ok (String.intercalate " " transcripts)
  | some i => AudioOutcome.err i

/-- The audio filename handed back to the caller: only the success path
returns it (the `except` path returns `None`). -/
def audio_returned : Option ℕ → Option FileId
  | none => some FileId.audioFile
  | some _ => none

/-- `process_audio` on an audio track of `audio_length` milliseconds: run
the chunk loop over `range(num_chunks)`, then the inner `finally` deletes
every created chunk file and the outer `finally` deletes the temporary
video file.  On success the transcripts are joined with a single space and
the audio filename is returned; on an oversized chunk the outer `except`
returns an error-tagged result and no filename. -/
def process_audio (audio_length : ℕ) (chunkSize : ℕ → ℕ)
    (transcribe : ℕ → String) : AudioRun :=
  let r := audio_chunk_loop chunkSize transcribe
    (List.range (num_chunks audio_length))
  { events := r.1 ++ r.2.2.1.map AudioEvent.deleteChunk
      ++ [AudioEvent.deleteTempVideo],
    outcome := audio_outcome r.2.1 r.2.2.2,
    returnedAudioFile := audio_returned r.2.2.2 }

/-- Replay of one event on the set of existing files. -/
def applyEvent (files : List FileId) : AudioEvent → List FileId
  | AudioEvent.createChunk i => files ++ [FileId.chunkFile i]
  | AudioEvent.transcribeChunk _ => files
  | AudioEvent.deleteChunk i => files.erase (FileId.chunkFile i)
  | AudioEvent.deleteTempVideo => files.erase FileId.tempVideo

/-- The files existing after `process_audio`, starting from the temporary
video file and the extracted full-audio file (both created before the
chunk loop). -/
def filesAfter (events : List AudioEvent) : List FileId :=
  events.foldl applyEvent [FileId.tempVideo, FileId.audioFile]

/-- The `finally` cleanup of `analyze_video_task` (video_analysis.py lines
196-213): when the task ended "error" or "completed" and `process_audio`
returned an audio filename, that file is deleted. -/
def task_cleanup (files : List FileId) (status : String)
    (audioFilename : Option FileId) : List FileId :=
  if status = "error" ∨ status = "completed" then
    match audioFilename with
    | some f => files.erase f
    | none => files
  else files

/-- The chunk indices transcribed, in trace order. -/
def transcription_trace (events : List AudioEvent) : List ℕ :=
  events.filterMap (fun e =>
    match e with
    | AudioEvent.transcribeChunk i => some i
    | _ => none)

theorem audio_chunk_loop_ok (cs : ℕ → ℕ) (tr : ℕ → String) :
    ∀ l : List ℕ, (∀ i ∈ l, cs i ≤ MAX_CHUNK_SIZE) →
      audio_chunk_loop cs tr l =
        (l.flatMap (fun i =>
            [AudioEvent.createChunk i, AudioEvent.transcribeChunk i]),
         l.map tr, l, none) := by
  intro l
  induction l with
  | nil => intro _; rfl
  | cons i rest ih =>
      intro h
      have hi : ¬ MAX_CHUNK_SIZE < cs i := not_lt.mpr (h i (by simp))
      rw [audio_chunk_loop, if_neg hi, ih (fun j hj => h j (by simp [hj]))]
      simp

theorem foldl_applyEvent_loop (cs : ℕ → ℕ) (tr : ℕ → String) :
    ∀ (l : List ℕ) (fs : List FileId),
      (audio_chunk_loop cs tr l).1.foldl applyEvent fs =
        fs ++ (audio_chunk_loop cs tr l).2.2.1.map FileId.chunkFile := by
  intro l
  induction l with
  | nil => intro fs; simp [audio_chunk_loop]
  | cons i rest ih =>
      intro fs
      by_cases h : MAX_CHUNK_SIZE < cs i
      · simp [audio_chunk_loop, h, applyEvent]
      · simp only [audio_chunk_loop, if_neg h, List.foldl_cons, applyEvent,
          List.map_cons]
        rw [ih]
        simp

theorem foldl_delete_all :
    ∀ (chunks : List ℕ) (fs : List FileId),
      (∀ i, FileId.chunkFile i ∉ fs) →
      ((chunks.map AudioEvent.deleteChunk).foldl applyEvent
        (fs ++ chunks.map FileId.chunkFile)) = fs := by
  intro chunks
  induction chunks with
  | nil => intro fs _; simp
  | cons c rest ih =>
      intro fs h
      simp only [List.map_cons, List.foldl_cons, applyEvent]
      rw [List.erase_append_right _ (h c), List.erase_cons_head]
      exact ih fs h

theorem process_audio_events (audio_length : ℕ) (cs : ℕ → ℕ)
    (tr : ℕ → String) :
    (process_audio audio_length cs tr).events =
      (audio_chunk_loop cs tr (List.range (num_chunks audio_length))).1
        ++ (audio_chunk_loop cs tr
              (List.range (num_chunks audio_length))).2.2.1.map
            AudioEvent.deleteChunk
        ++ [AudioEvent.deleteTempVideo] := rfl

theorem process_audio_outcome (audio_length : ℕ) (cs : ℕ → ℕ)
    (tr : ℕ → String) :
    (process_audio audio_length cs tr).outcome =
      audio_outcome
        (audio_chunk_loop cs tr (List.range (num_chunks audio_length))).2.1
        (audio_chunk_loop cs tr
          (List.range (num_chunks audio_length))).2.2.2 := rfl

theorem process_audio_returned (audio_length : ℕ) (cs : ℕ → ℕ)
    (tr : ℕ → String) :
    (process_audio audio_length cs tr).returnedAudioFile =
      audio_returned
        (audio_chunk_loop cs tr
          (List.range (num_chunks audio_length))).2.2.2 := rfl

theorem process_audio_filesAfter (audio_length : ℕ) (cs : ℕ → ℕ)
    (tr : ℕ → String) :
    filesAfter (process_audio audio_length cs tr).events = [FileId.audioFile] := by
  rw [filesAfter, process_audio_events, List.foldl_append, List.foldl_append,
    foldl_applyEvent_loop,
    foldl_delete_all _ [FileId.tempVideo, FileId.audioFile] (by simp)]
  rfl

theorem transcription_trace_loop :
    ∀ l : List ℕ,
      transcription_trace
        (l.flatMap (fun i =>
          [AudioEvent.createChunk i, AudioEvent.transcribeChunk i])) = l := by
  intro l
  induction l with
  | nil => rfl
  | cons i rest ih =>
      simp only [List.flatMap_cons, transcription_trace, List.filterMap_append]
      simp only [transcription_trace] at ih
      rw [ih]
      rfl

theorem transcription_trace_deletes (chunks : List ℕ) :
    transcription_trace (chunks.map AudioEvent.deleteChunk) = [] := by
  induction chunks with
  | nil => rfl
  | cons c rest ih =>
      simp only [List.map_cons, transcription_trace, List.filterMap_cons] at ih ⊢
      exact ih

/-- C4: for an audio track of `L` milliseconds whose encoded chunks are all
within the size cap, `process_audio` makes exactly
`ceil(L / 600000)` chunks (`num_chunks` is characterized here as the least
count covering `L`), chunk `i` covering
`[i*600000, min((i+1)*600000, L))`; the chunks are transcribed strictly in
index order (the transcription trace is `0, 1, ..., num_chunks - 1`), and
the final transcript is the chunk transcripts joined in chunk order with a
single space.  The last conjunct is the spec's example: a 25-minute track
(1,500,000 ms) gives 3 chunks, the last spanning exactly the remainder. -/
theorem process_audio_chunking (L : ℕ) (cs : ℕ → ℕ) (tr : ℕ → String)
    (hsize : ∀ i, i < num_chunks L → cs i ≤ MAX_CHUNK_SIZE) :
    (chunkBounds L).length = num_chunks L ∧
    (0 < L → (num_chunks L - 1) * CHUNK_DURATION < L ∧
        L ≤ num_chunks L * CHUNK_DURATION) ∧
    (∀ i : ℕ, i < num_chunks L → (chunkBounds L)[i]? =
        some (i * CHUNK_DURATION, min ((i + 1) * CHUNK_DURATION) L)) ∧
    transcription_trace (process_audio L cs tr).events =
      List.range (num_chunks L) ∧
    (process_audio L cs tr).outcome =
      AudioOutcome.ok (String.intercalate " "
        ((List.range (num_chunks L)).map tr)) ∧
    chunkBounds 1500000 =
      [(0, 600000), (600000, 1200000), (1200000, 1500000)] := by
  have hloop := audio_chunk_loop_ok cs tr (List.range (num_chunks L))
    (fun i hi => hsize i (List.mem_range.mp hi))
  refine ⟨?_, ?_, ?_, ?_, ?_, ?_⟩
  · simp [chunkBounds]
  · intro hL
    simp only [num_chunks, CHUNK_DURATION] at *
    omega
  · intro i hi
    rw [chunkBounds, List.getElem?_map, List.getElem?_range hi,
      Option.map_some']
  · rw [process_audio_events, hloop]
    dsimp only
    have h1 := transcription_trace_loop (List.range (num_chunks L))
    have h2 := transcription_trace_deletes (List.range (num_chunks L))
    simp only [transcription_trace, List.filterMap_append] at h1 h2 ⊢
    rw [h1, h2]
    simp
  · rw [process_audio_outcome, hloop]
    rfl
  · decide

/-- Witness for C4: the 25-minute track, every chunk empty, constant
transcripts. -/
theorem process_audio_chunking_witness :
    (process_audio 1500000 (fun _ => 0) (fun _ => "t")).outcome =
      AudioOutcome.ok (String.intercalate " "
        ((List.range (num_chunks 1500000)).map (fun _ => "t"))) :=
  (process_audio_chunking 1500000 (fun _ => 0) (fun _ => "t")
    (fun _ _ => Nat.zero_le _)).2.2.2.2.1

/-- Decidable check of the claim "every per-chunk temporary file is deleted
immediately after its transcription attempt": every `transcribeChunk i`
event is immediately followed by `deleteChunk i`. -/
def immediate_deletion (events : List AudioEvent) : Bool :=
  (List.range events.length).all (fun j =>
    match events[j]? with
    | some (AudioEvent.transcribeChunk i) =>
        decide (events[j + 1]? = some (AudioEvent.deleteChunk i))
    | _ => true)

/-- C5 is false as stated: with two chunks, both within the size cap,
chunk 0's temporary file is not deleted immediately after its
transcription attempt — the next event creates chunk 1, and both chunk
files are deleted only by the `finally` block after the loop. -/
theorem chunk_not_deleted_immediately :
    (process_audio 700000 (fun _ => 0) (fun _ => "t")).events =
      [AudioEvent.createChunk 0, AudioEvent.transcribeChunk 0,
       AudioEvent.createChunk 1, AudioEvent.transcribeChunk 1,
       AudioEvent.deleteChunk 0, AudioEvent.deleteChunk 1,
       AudioEvent.deleteTempVideo] ∧
    immediate_deletion (process_audio 700000 (fun _ => 0) (fun _ => "t")).events
      = false := by
  constructor <;> decide

/-- C5 (amended): every chunk file created during chunking is deleted by
the time `process_audio` returns (by its `finally` blocks, not immediately
after each chunk's transcription), and the temporary source video file is
deleted too, on success and on a mid-loop oversize error alike — the only
file surviving `process_audio` is the intermediate full-audio file.  On
success its name is returned and the task-level cleanup then removes it;
on a per-chunk oversize error the operation returns an error-tagged result
(instead of raising) with no filename, so the task-level cleanup leaves
the full-audio file behind.  The last conjuncts replay the spec's
scenario — chunk 2 of 3 oversized: chunk file 0 is created and deleted,
chunk file 2 is never created, and the result is error-tagged. -/
theorem process_audio_cleanup (L : ℕ) (cs : ℕ → ℕ) (tr : ℕ → String) :
    filesAfter (process_audio L cs tr).events = [FileId.audioFile] ∧
    ((∀ i, i < num_chunks L → cs i ≤ MAX_CHUNK_SIZE) →
        (process_audio L cs tr).returnedAudioFile = some FileId.audioFile ∧
        task_cleanup (filesAfter (process_audio L cs tr).events) "completed"
            (process_audio L cs tr).returnedAudioFile = []) ∧
    (∀ i, (process_audio L cs tr).outcome = AudioOutcome.err i →
        (process_audio L cs tr).returnedAudioFile = none ∧
        task_cleanup (filesAfter (process_audio L cs tr).events) "error"
            (process_audio L cs tr).returnedAudioFile = [FileId.audioFile]) ∧
    (process_audio 1500000
        (fun i => if i = 1 then MAX_CHUNK_SIZE + 1 else 0)
        (fun _ => "t")).events =
      [AudioEvent.createChunk 0, AudioEvent.transcribeChunk 0,
       AudioEvent.createChunk 1, AudioEvent.deleteChunk 0,
       AudioEvent.deleteChunk 1, AudioEvent.deleteTempVideo] ∧
    (process_audio 1500000
        (fun i => if i = 1 then MAX_CHUNK_SIZE + 1 else 0)
        (fun _ => "t")).outcome = AudioOutcome.err 1 := by
  refine ⟨process_audio_filesAfter L cs tr, ?_, ?_, by decide, by decide⟩
  · intro hsize
    have hloop := audio_chunk_loop_ok cs tr (List.range (num_chunks L))
      (fun i hi => hsize i (List.mem_range.mp hi))
    have hret : (process_audio L cs tr).returnedAudioFile
        = some FileId.audioFile := by
      rw [process_audio_returned, hloop]
      rfl
    refine ⟨hret, ?_⟩
    rw [process_audio_filesAfter, hret]
    decide
  · intro i hout
    have hret : (process_audio L cs tr).returnedAudioFile = none := by
      rw [process_audio_outcome] at hout
      rw [process_audio_returned]
      cases h : (audio_chunk_loop cs tr (List.range (num_chunks L))).2.2.2 with
      | none => rw [h] at hout; simp [audio_outcome] at hout
      | some j => rfl
    refine ⟨hret, ?_⟩
    rw [process_audio_filesAfter, hret]
    decide

/-! ## Result assembly and orchestration
(app/api/routes/video_analysis.py lines 32-213, claims C6, C7, C8)

`analyze_video_task` gathers the visual and audio branches, aborts with an
"error" record when no usable montage came back, otherwise calls
`generate_description` then `extract_video_metadata`, assembles the result
record (required fields always, each optional metadata field only when its
key is present in the metadata record, `no_of_person_in_video` normalized),
stores it, and when an identifier was supplied posts it once to the
callback endpoint: a non-200 response is only logged, while a raised
transport error falls through to the `except` handler which completes the
task as "error" and overwrites the stored result with an error record.
JSON values are modelled by `MetaVal`, the metadata record and the result
as association lists, and the collaborators as oracles recorded in an
invocation trace. -/

structure ChristianRecord where
  is_christian : Bool
  confidence_score : Option ℚ
  indicators : Option (List String)
  deriving DecidableEq, Repr

inductive MetaVal where
  | str : String → MetaVal
  | num : ℤ → MetaVal
  | boolV : Bool → MetaVal
  | listV : List String → MetaVal
  | keywords : List (String × ℤ) → MetaVal
  | christian : ChristianRecord → MetaVal
  deriving DecidableEq, Repr

/-- Python `str.isdigit` restricted to ASCII digits (the only strings the
claims exercise). -/
def pyIsDigit (s : String) : Bool :=
  decide (s.data ≠ []) && s.data.all Char.isDigit

/-- Python `int(s)` on a digit string. -/
def pyParseNat (s : String) : ℕ :=
  s.data.foldl (fun n c => 10 * n + (c.toNat - 48)) 0

/-- Normalization of `no_of_person_in_video` (lines 141-146): a string
value becomes `int(value)` when it is all digits and 0 otherwise; any other
value passes through unchanged. -/
def normalize_person_count : MetaVal → MetaVal
  | MetaVal.str s =>
      MetaVal.num (if pyIsDigit s then (pyParseNat s : ℤ) else 0)
  | v => v

/-- The optional metadata keys copied by the `if key in metadata` chain
(lines 102-146), in source order. -/
def optional_keys : List String :=
  ["topics", "entities", "actions", "emotions", "visual_elements",
   "audio_elements", "genre", "target_audience", "quality_indicators",
   "unique_identifiers", "person_identity", "other_person_identity",
   "psychological_personality", "no_of_person_in_video"]

/-- The required fields of the result record (lines 92-99). -/
def base_result (metadata : List (String × MetaVal)) (is_safe : Bool)
    (content_warnings : List String) (description : String) :
    List (String × MetaVal) :=
  [("status", MetaVal.str "completed"),
   ("description", MetaVal.str description),
   ("is_safe", MetaVal.boolV is_safe),
   ("content_warnings", MetaVal.listV content_warnings),
   ("keywords", (metadata.lookup "keywords").getD (MetaVal.keywords [])),
   ("is_face_exist",
     (metadata.lookup "is_face_exist").getD (MetaVal.boolV false))]

/-- One step of the `if key in metadata: result[key] = ...` chain. -/
def add_optional (metadata : List (String × MetaVal))
    (result : List (String × MetaVal)) (k : String) :
    List (String × MetaVal) :=
  match metadata.lookup k with
  | some v =>
      result ++
        [(k, if k = "no_of_person_in_video" then normalize_person_count v
             else v)]
  | none => result

/-- The Christian-content sub-record rebuilt with `.get` defaults
(lines 150-156). -/
def christian_record : Option MetaVal → ChristianRecord
  | some (MetaVal.christian r) => r
  | _ => { is_christian := false, confidence_score := none, indicators := none }

/-- The assembled result record (lines 92-156). -/
def build_result (metadata : List (String × MetaVal)) (is_safe : Bool)
    (content_warnings : List String) (description : String)
    (is_christian_content : Bool) : List (String × MetaVal) :=
  let result := optional_keys.foldl (add_optional metadata)
    (base_result metadata is_safe content_warnings description)
  if is_christian_content then
    result ++
      [("is_christian_content",
        MetaVal.christian
          (christian_record (metadata.lookup "is_christian_content")))]
  else result

inductive CallbackOutcome where
  | httpResponse : ℕ → CallbackOutcome
  | transportError : CallbackOutcome
  deriving DecidableEq, Repr

structure OrchInput where
  is_safe : Bool
  content_warnings : List String
  base64_grids : List String
  description : String
  metadata : List (String × MetaVal)
  identifier : Option String
  is_christian_content : Bool
  callback : CallbackOutcome
  deriving Repr

structure OrchOutput where
  invoked : List String
  analysis_result : List (String × MetaVal)
  final_status : String
  final_progress : ℚ
  callback_attempts : ℕ
  deriving Repr

def error_result (msg : String) : List (String × MetaVal) :=
  [("status", MetaVal.str "error"), ("message", MetaVal.str msg)]

/-- `analyze_video_task` after the parallel join, with the collaborator
results supplied as inputs: abort when `base64_grids` is empty (lines
69-77), otherwise synthesize and assemble; with an identifier, attempt the
callback exactly once (line 182) — a non-200 response is only logged
(lines 183-186) while a transport error reaches the `except` handler
(lines 192-195), which completes the task as "error" and overwrites the
stored result. -/
def analyze_video_task (inp : OrchInput) : OrchOutput :=
  if inp.base64_grids.isEmpty then
    { invoked := [],
      analysis_result :=
        error_result "No valid frames could be extracted from the video",
      final_status := "error", final_progress := 100, callback_attempts := 0 }
  else
    let result := build_result inp.metadata inp.is_safe inp.content_warnings
      inp.description inp.is_christian_content
    match inp.identifier with
    | none =>
        { invoked := ["generate_description", "extract_video_metadata"],
          analysis_result := result, final_status := "completed",
          final_progress := 100, callback_attempts := 0 }
    | some _ =>
        match inp.callback with
        | CallbackOutcome.transportError =>
            { invoked := ["generate_description", "extract_video_metadata",
                          "requests.post"],
              analysis_result := error_result "callback transport error",
              final_status := "error", final_progress := 100,
              callback_attempts := 1 }
        | CallbackOutcome.httpResponse _ =>
            { invoked := ["generate_description", "extract_video_metadata",
                          "requests.post"],
              analysis_result := result, final_status := "completed",
              final_progress := 100, callback_attempts := 1 }

theorem lookup_append_mv (l₁ l₂ : List (String × MetaVal)) (k : String) :
    (l₁ ++ l₂).lookup k =
      match l₁.lookup k with
      | some v => some v
      | none => l₂.lookup k := by
  induction l₁ with
  | nil => simp [List.lookup]
  | cons p rest ih =>
      obtain ⟨k', v⟩ := p
      by_cases h : k = k'
      · subst h; simp [List.lookup]
      · have hk : (k == k') = false := beq_eq_false_iff_ne.mpr h
        simp [List.lookup, hk, ih]

theorem lookup_foldl_not_mem (metadata : List (String × MetaVal)) :
    ∀ (ks : List String) (acc : List (String × MetaVal)) (k : String),
      k ∉ ks →
      (ks.foldl (add_optional metadata) acc).lookup k = acc.lookup k := by
  intro ks
  induction ks with
  | nil => intro acc k _; rfl
  | cons k' ks ih =>
      intro acc k hk
      have hk1 : k ≠ k' := fun h => hk (by simp [h])
      have hk2 : k ∉ ks := fun h => hk (by simp [h])
      rw [List.foldl_cons, ih _ _ hk2]
      unfold add_optional
      cases h : metadata.lookup k' with
      | none => rfl
      | some v =>
          rw [lookup_append_mv]
          have hsing : List.lookup k
              [(k', if k' = "no_of_person_in_video" then
                      normalize_person_count v else v)] = none := by
            simp [List.lookup, beq_eq_false_iff_ne.mpr hk1]
          rw [hsing]
          cases acc.lookup k <;> rfl

theorem lookup_foldl_mem (metadata : List (String × MetaVal)) :
    ∀ (ks : List String) (acc : List (String × MetaVal)) (k : String),
      k ∈ ks → ks.Nodup → acc.lookup k = none →
      (ks.foldl (add_optional metadata) acc).lookup k =
        (metadata.lookup k).map
          (fun v => if k = "no_of_person_in_video" then
              normalize_person_count v else v) := by
  intro ks
  induction ks with
  | nil => intro acc k hk; exact absurd hk (List.not_mem_nil k)
  | cons k' ks ih =>
      intro acc k hk hnd hacc
      rw [List.foldl_cons]
      rcases List.mem_cons.mp hk with rfl | hmem
      · have hknotin : k ∉ ks := (List.nodup_cons.mp hnd).1
        rw [lookup_foldl_not_mem metadata ks _ k hknotin]
        unfold add_optional
        cases h : metadata.lookup k with
        | none => simp [hacc]
        | some v =>
            rw [lookup_append_mv, hacc]
            simp [List.lookup]
      · have hne : k ≠ k' := by
          rintro rfl
          exact (List.nodup_cons.mp hnd).1 hmem
        have hacc' : (add_optional metadata acc k').lookup k = none := by
          unfold add_optional
          cases h : metadata.lookup k' with
          | none => exact hacc
          | some v =>
              rw [lookup_append_mv, hacc]
              simp [List.lookup, beq_eq_false_iff_ne.mpr hne]
        exact ih _ k hmem (List.nodup_cons.mp hnd).2 hacc'

theorem optional_keys_nodup : optional_keys.Nodup := by decide

theorem lookup_base_none (metadata : List (String × MetaVal)) (is_safe : Bool)
    (content_warnings : List String) (description : String) (k : String)
    (hk : k ∈ optional_keys) :
    (base_result metadata is_safe content_warnings description).lookup k
      = none := by
  simp only [optional_keys] at hk
  fin_cases hk <;> rfl

/-- C7: for every metadata record, the assembled result contains an
optional metadata key exactly when the metadata record contains it, with
the value copied through unchanged except `no_of_person_in_video`, which
is normalized — a digit string parses to its integer, a non-digit string
coerces to 0, and a numeric value passes through unchanged. -/
theorem result_optional_fields (metadata : List (String × MetaVal))
    (is_safe : Bool) (content_warnings : List String) (description : String)
    (icc : Bool) (k : String) (hk : k ∈ optional_keys) :
    (build_result metadata is_safe content_warnings description icc).lookup k
        = (metadata.lookup k).map
            (fun v => if k = "no_of_person_in_video" then
                normalize_person_count v else v) ∧
    normalize_person_count (MetaVal.str "3") = MetaVal.num 3 ∧
    normalize_person_count (MetaVal.str "abc") = MetaVal.num 0 ∧
    (∀ n : ℤ, normalize_person_count (MetaVal.num n) = MetaVal.num n) := by
  refine ⟨?_, by decide, by decide, fun n => rfl⟩
  have hfold := lookup_foldl_mem metadata optional_keys
    (base_result metadata is_safe content_warnings description) k hk
    optional_keys_nodup
    (lookup_base_none metadata is_safe content_warnings description k hk)
  have hne : k ≠ "is_christian_content" := by
    intro h
    subst h
    revert hk
    decide
  unfold build_result
  cases icc with
  | false => simpa using hfold
  | true =>
      simp only [if_true]
      rw [lookup_append_mv, hfold]
      cases h : metadata.lookup k <;>
        simp [List.lookup, beq_eq_false_iff_ne.mpr hne]

/-- Witness for C7: a metadata record holding only `entities` and a digit
string `no_of_person_in_video`; the assembled result parses the latter to
the integer 3. -/
theorem result_optional_fields_witness :
    (build_result
        [("entities", MetaVal.listV ["x"]),
         ("no_of_person_in_video", MetaVal.str "3")]
        true [] "d" false).lookup "no_of_person_in_video"
      = some (MetaVal.num 3) := by
  have h := (result_optional_fields
    [("entities", MetaVal.listV ["x"]),
     ("no_of_person_in_video", MetaVal.str "3")]
    true [] "d" false "no_of_person_in_video" (by decide)).1
  rw [h]
  decide

/-- C6: when the visual branch yields zero usable montages, the task is
terminated with an "error" status and a descriptive message, and neither
`generate_description` nor `extract_video_metadata` is ever invoked. -/
theorem no_montages_aborts (inp : OrchInput) (h : inp.base64_grids = []) :
    (analyze_video_task inp).final_status = "error" ∧
    (analyze_video_task inp).analysis_result =
      error_result "No valid frames could be extracted from the video" ∧
    "generate_description" ∉ (analyze_video_task inp).invoked ∧
    "extract_video_metadata" ∉ (analyze_video_task inp).invoked := by
  have he : inp.base64_grids.isEmpty = true := by simp [h]
  simp [analyze_video_task, he]

/-- Witness for C6 at a concrete input with no montages. -/
theorem no_montages_aborts_witness :
    (analyze_video_task
        { is_safe := false, content_warnings := ["w"], base64_grids := [],
          description := "", metadata := [], identifier := none,
          is_christian_content := false,
          callback := CallbackOutcome.transportError }).final_status
      = "error" :=
  (no_montages_aborts _ rfl).1

/-- A concrete run input with montages, an identifier, and a callback that
raises a transport error. -/
def transport_error_input : OrchInput :=
  { is_safe := true, content_warnings := [], base64_grids := ["g"],
    description := "d", metadata := [], identifier := some "id7",
    is_christian_content := false,
    callback := CallbackOutcome.transportError }

/-- C8 is false as stated for transport errors: on this input the callback
delivery fails with a transport error, and the task does not finish as
"completed" — the exception reaches the `except` handler, which completes
the task as "error" and overwrites the stored result with an error
record. -/
theorem callback_transport_error_fails_task :
    transport_error_input.callback = CallbackOutcome.transportError ∧
    (analyze_video_task transport_error_input).callback_attempts = 1 ∧
    (analyze_video_task transport_error_input).final_status = "error" ∧
    (analyze_video_task transport_error_input).final_status ≠ "completed" :=
  ⟨rfl, rfl, rfl, by decide⟩

/-- C8 (amended): with montages present, the callback is attempted exactly
once when an identifier was supplied (and never otherwise), with no retry;
a non-2xx HTTP response is only logged and the task still finishes as
"completed"; but a raised transport error ends the task as "error". -/
theorem callback_delivery_semantics (inp : OrchInput)
    (hgrids : inp.base64_grids ≠ []) :
    (inp.identifier.isSome →
        (analyze_video_task inp).callback_attempts = 1) ∧
    (inp.identifier = none →
        (analyze_video_task inp).callback_attempts = 0) ∧
    (∀ code, inp.callback = CallbackOutcome.httpResponse code →
        (analyze_video_task inp).final_status = "completed") ∧
    (inp.identifier.isSome → inp.callback = CallbackOutcome.transportError →
        (analyze_video_task inp).final_status = "error") := by
  have he : inp.base64_grids.isEmpty = false := by
    simp [List.isEmpty_iff, hgrids]
  cases hid : inp.identifier with
  | none =>
      refine ⟨?_, fun _ => ?_, fun code hc => ?_, ?_⟩
      · intro hs; simp at hs
      · simp [analyze_video_task, he, hid]
      · simp [analyze_video_task, he, hid]
      · intro hs; simp at hs
  | some ident =>
      cases hc : inp.callback with
      | httpResponse code =>
          refine ⟨fun _ => ?_, fun h => ?_, fun c hcc => ?_, fun _ hcc => ?_⟩
          · simp [analyze_video_task, he, hid, hc]
          · simp at h
          · simp [analyze_video_task, he, hid, hc]
          · simp at hcc
      | transportError =>
          refine ⟨fun _ => ?_, fun h => ?_, fun c hcc => ?_, fun _ _ => ?_⟩
          · simp [analyze_video_task, he, hid, hc]
          · simp at h
          · simp at hcc
          · simp [analyze_video_task, he, hid, hc]

/-- Witness for C8 (amended): a 500 response is only logged and the task
still completes. -/
theorem callback_delivery_semantics_witness :
    (analyze_video_task
        { transport_error_input with
            callback := CallbackOutcome.httpResponse 500 }).final_status
      = "completed" :=
  (callback_delivery_semantics
    { transport_error_input with
        callback := CallbackOutcome.httpResponse 500 }
    (by decide)).2.2.1 500 rfl

/-! ## analyze_video URL submission
(app/api/routes/video_analysis.py lines 19-20 and 216-248, claim C9)

With a `file_url`, the endpoint loops `attempt` over `range(MAX_RETRIES)`:
each `requests.get` whose status code is 200 schedules the background
analysis and breaks; any other status code prints a retry message and
sleeps `RETRY_DELAY` (10) seconds; a raised `requests.RequestException`
aborts to the `except` handler, which returns `{"error": "Failed to
process video"}`.  After the loop — scheduled or not — the function
returns the success acknowledgement `{"message": "Video analysis
started.", "task_id": ...}`.  The fetch outcomes are an oracle indexed by
attempt number; `delays` counts the 10-second sleeps performed. -/

def MAX_RETRIES : ℕ := 3

def RETRY_DELAY : ℕ := 10

inductive FetchOutcome where
  | status : ℕ → FetchOutcome
  | raiseExn : FetchOutcome
  deriving DecidableEq, Repr

inductive SubmitResponse where
  | started : SubmitResponse
  | fetchError : SubmitResponse
  deriving DecidableEq, Repr

structure SubmitOutput where
  scheduled : Bool
  response : SubmitResponse
  attempts : ℕ
  delays : ℕ
  deriving DecidableEq, Repr

/-- The retry loop body, over the list of attempt indices: returns
(background task scheduled, exception raised, attempts made, sleeps
performed). -/
def fetch_loop (fetch : ℕ → FetchOutcome) :
    List ℕ → Bool × Bool × ℕ × ℕ
  | [] => (false, false, 0, 0)
  | a :: rest =>
      match fetch a with
      | FetchOutcome.status code =>
          if code = 200 then (true, false, 1, 0)
          else
            let r := fetch_loop fetch rest
            (r.1, r.2.1, r.2.2.1 + 1, r.2.2.2 + 1)
      | FetchOutcome.raiseExn => (false, true, 1, 0)

/-- The URL branch of `analyze_video`: run the retry loop; a raised
exception yields the error response, every other outcome — including all
attempts failing with non-200 statuses — yields the success
acknowledgement. -/
def analyze_video_url (fetch : ℕ → FetchOutcome) : SubmitOutput :=
  let r := fetch_loop fetch (List.range MAX_RETRIES)
  { scheduled := r.1,
    response := if r.2.1 then SubmitResponse.fetchError
                else SubmitResponse.started,
    attempts := r.2.2.1,
    delays := r.2.2.2 }

/-- C9 is false as stated: when every attempt returns a non-200 status
(here 404), the background analysis is indeed never scheduled, but the
caller receives the success acknowledgement ("Video analysis started."
with a task id), not a submission-level error. -/
theorem fetch_all_fail_returns_started :
    (analyze_video_url (fun _ => FetchOutcome.status 404)).scheduled = false ∧
    (analyze_video_url (fun _ => FetchOutcome.status 404)).response
      = SubmitResponse.started ∧
    (analyze_video_url (fun _ => FetchOutcome.status 404)).response
      ≠ SubmitResponse.fetchError :=
  ⟨rfl, rfl, by decide⟩

theorem fetch_loop_cons_fail (fetch : ℕ → FetchOutcome) (a : ℕ)
    (rest : List ℕ) (c : ℕ) (h : fetch a = FetchOutcome.status c)
    (hc : c ≠ 200) :
    fetch_loop fetch (a :: rest) =
      ((fetch_loop fetch rest).1, (fetch_loop fetch rest).2.1,
       (fetch_loop fetch rest).2.2.1 + 1, (fetch_loop fetch rest).2.2.2 + 1) := by
  rw [fetch_loop, h]
  simp [hc]

/-- C9 (amended): with a remote URL, the fetch is attempted up to
`MAX_RETRIES = 3` times with a `RETRY_DELAY = 10` second sleep after each
failed attempt; when all 3 attempts return a non-200 status the background
analysis is never started, but the caller still receives the success
acknowledgement rather than a submission-level error; the submission-level
error response is returned only when the fetch raises a transport
exception, which aborts the submission at once with no further
attempts. -/
theorem url_fetch_retry (fetch : ℕ → FetchOutcome)
    (hfail : ∀ i, i < MAX_RETRIES →
      ∃ c, fetch i = FetchOutcome.status c ∧ c ≠ 200) :
    (analyze_video_url fetch).scheduled = false ∧
    (analyze_video_url fetch).attempts = MAX_RETRIES ∧
    (analyze_video_url fetch).delays = MAX_RETRIES ∧
    RETRY_DELAY = 10 ∧
    (analyze_video_url fetch).response = SubmitResponse.started ∧
    (∀ g : ℕ → FetchOutcome, g 0 = FetchOutcome.raiseExn →
        (analyze_video_url g).response = SubmitResponse.fetchError ∧
        (analyze_video_url g).attempts = 1 ∧
        (analyze_video_url g).scheduled = false) := by
  obtain ⟨c0, h0, hc0⟩ := hfail 0 (by norm_num [MAX_RETRIES])
  obtain ⟨c1, h1, hc1⟩ := hfail 1 (by norm_num [MAX_RETRIES])
  obtain ⟨c2, h2, hc2⟩ := hfail 2 (by norm_num [MAX_RETRIES])
  have hrange : List.range MAX_RETRIES = [0, 1, 2] := rfl
  have hloop : fetch_loop fetch [0, 1, 2] = (false, false, 3, 3) := by
    rw [fetch_loop_cons_fail fetch 0 _ c0 h0 hc0,
      fetch_loop_cons_fail fetch 1 _ c1 h1 hc1,
      fetch_loop_cons_fail fetch 2 _ c2 h2 hc2]
    rfl
  refine ⟨?_, ?_, ?_, rfl, ?_, ?_⟩
  · simp [analyze_video_url, hrange, hloop]
  · simp only [analyze_video_url]
    rw [hrange, hloop]
    rfl
  · simp only [analyze_video_url]
    rw [hrange, hloop]
    rfl
  · simp [analyze_video_url, hrange, hloop]
  · intro g hg
    have hgloop : fetch_loop g [0, 1, 2] = (false, true, 1, 0) := by
      rw [fetch_loop, hg]
    refine ⟨?_, ?_, ?_⟩ <;> simp [analyze_video_url, hrange, hgloop]

/-- Witness for C9 (amended): every attempt returns 404. -/
theorem url_fetch_retry_witness :
    (analyze_video_url (fun _ => FetchOutcome.status 404)).attempts
      = MAX_RETRIES :=
  (url_fetch_retry (fun _ => FetchOutcome.status 404)
    (fun _ _ => ⟨404, rfl, by norm_num⟩)).2.1
